import Mathlib

/-!
Verification of the embedded-metadata block scanner and facade of
`ducktools-pep723parser` (`src/ducktools/pep723parser.py`).

A source is modelled as the sequence of its lines, each line a `List Char`
that includes its trailing newline, exactly as Python file / `io.StringIO`
iteration yields them to `EmbeddedMetadataParser._parse_source_blocks`.
The scan is modelled as a function from the line sequence to either a
duplicate-name error (the `ValueError` raise) or the final scanner state,
with the lazily yielded blocks, the emitted `warnings.warn` events and the
`possible_errors` diagnostics list made explicit as state fields.
-/

abbrev Line : Type := List Char

/-- Whitespace characters stripped by Python `str.rstrip()` / `str.strip()`
(the ASCII set; no input in this development uses other whitespace). -/
def pyWs (c : Char) : Bool :=
  c == ' ' || c == '\t' || c == '\n' || c == '\r' || c == '\x0b' || c == '\x0c'

/-- Embeds Python `line.rstrip()`. -/
def rstrip (l : Line) : Line := (l.reverse.dropWhile pyWs).reverse

/-- Embeds Python `line.lstrip()`. -/
def lstrip (l : Line) : Line := l.dropWhile pyWs

/-- Embeds Python `line.strip()`. -/
def strip (l : Line) : Line := rstrip (lstrip l)

/-- Embeds `_removeprefix(txt, pre)` from the source: drop `pre` from the
front of `txt` when it is present, else return `txt` unchanged. -/
def removeStart (txt pre : Line) : Line :=
  if pre.isPrefixOf txt then txt.drop pre.length else txt

/-- The character class of `_is_valid_type`: ASCII letters, digits, hyphen. -/
def valid_type_chars : Line :=
  "abcdefghijklmnopqrstuvwxyzABCDEFGHIJKLMNOPQRSTUVWXYZ0123456789-".data

/-- Embeds `_is_valid_type`. -/
def is_valid_type (txt : Line) : Bool :=
  txt.all (fun c => valid_type_chars.contains c)

/-- The `warnings.warn` events the scanner can emit, tagged with the data
interpolated into the message f-strings. -/
inductive ScanWarning where
  | unclosed : Option Line → ScanWarning
  | aliasSuggest : Line → ScanWarning
deriving DecidableEq

/-- The state of `_parse_source_blocks`, with the yielded blocks, emitted
warnings and `self.possible_errors` made explicit. -/
structure ScanState where
  in_block : Bool
  block_name : Option Line
  block_data : List Line
  consumed_blocks : List Line
  possible_errors : List (Line × Option Line)
  warnings : List ScanWarning
  blocks : List (Line × Line)
deriving DecidableEq

/-- Scanner state at the top of `_parse_source_blocks` (which also resets
`self.possible_errors` to the empty list). -/
def initState : ScanState :=
  { in_block := false
    block_name := Option.none
    block_data := []
    consumed_blocks := []
    possible_errors := []
    warnings := []
    blocks := [] }

deriving instance DecidableEq for Except

/-- The opener extraction of the outside-block branch: a line opens iff it
starts with a comment character and, after `rstrip`, is not the closer
`# ///` but starts with `# /// `; the candidate name is then what follows
the marker after removing the comment prefix, stripped of whitespace. -/
def openerName (line : Line) : Option Line :=
  if "#".data.isPrefixOf line then
    let l := rstrip line
    if !(l == "# ///".data) && "# /// ".data.isPrefixOf l then
      some (strip ((removeStart (l.drop 1) [' ']).drop 4))
    else
      Option.none
  else
    Option.none

/-- The `in_block` branch of the loop body of `_parse_source_blocks`. -/
def inBlockLine (s : ScanState) (line : Line) : Except Line ScanState :=
  if !(rstrip line == "#".data || "# ".data.isPrefixOf line) then
    -- potential unclosed block: warn and reset
    Except.ok { s with
      in_block := false
      block_name := Option.none
      block_data := []
      warnings := s.warnings ++ [ScanWarning.unclosed s.block_name] }
  else if rstrip line == "# ///".data then
    -- closer: join the accumulated data and yield the block
    Except.ok { s with
      blocks := s.blocks ++ [(s.block_name.getD [], s.block_data.flatten)]
      in_block := false
      block_name := Option.none
      block_data := [] }
  else
    -- accumulate; an opener-prefixed line additionally records a diagnostic
    let s1 :=
      if "# /// ".data.isPrefixOf line then
        { s with possible_errors :=
            s.possible_errors ++ [(strip (line.drop 5), s.block_name)] }
      else s
    Except.ok { s1 with
      block_data := s1.block_data ++ [removeStart (line.drop 1) [' ']] }

/-- The outside-block branch of the loop body of `_parse_source_blocks`.
Note the duplicate check precedes the alias warning, which precedes the
validity check, and `block_name` is assigned even for an invalid name. -/
def outsideLine (s : ScanState) (line : Line) : Except Line ScanState :=
  match openerName line with
  | Option.none => Except.ok s
  | some name =>
    if name ∈ s.consumed_blocks then
      Except.error name
    else
      let s1 :=
        if name == "pyproject.toml".data then
          { s with warnings := s.warnings ++ [ScanWarning.aliasSuggest name] }
        else s
      if is_valid_type name then
        Except.ok { s1 with
          consumed_blocks := s1.consumed_blocks ++ [name]
          in_block := true
          block_name := some name }
      else
        Except.ok { s1 with block_name := some name }

/-- One iteration of the loop of `_parse_source_blocks`. -/
def processLine (s : ScanState) (line : Line) : Except Line ScanState :=
  if s.in_block then inBlockLine s line else outsideLine s line

/-- The loop of `_parse_source_blocks` over the remaining lines; the raised
`ValueError` on a duplicate name short-circuits the scan. -/
def scanList (s : ScanState) : List Line → Except Line ScanState
  | [] => Except.ok s
  | line :: rest =>
    match processLine s line with
    | Except.error e => Except.error e
    | Except.ok s1 => scanList s1 rest

/-- A whole scan: run the loop from the initial state, then emit the final
unclosed-block warning if the source ended while a block was open. -/
def runScan (lines : List Line) : Except Line ScanState :=
  match scanList initState lines with
  | Except.error e => Except.error e
  | Except.ok s =>
    if s.in_block then
      Except.ok { s with warnings := s.warnings ++ [ScanWarning.unclosed s.block_name] }
    else
      Except.ok s

/-- The fully materialized scan result, as consumed by the
`metadata_blocks` dictionary comprehension: either the duplicate-name
error or the list of (name, raw text) blocks in order of appearance. -/
def metadata_blocks (lines : List Line) : Except Line (List (Line × Line)) :=
  (runScan lines).map ScanState.blocks

/-! ## Constructor configuration (`EmbeddedMetadataParser.__init__`) -/

/-- The two `ValueError` raises of `__init__`. -/
inductive ConfigError where
  | bothProvided : ConfigError
  | neitherProvided : ConfigError
deriving DecidableEq

/-- The constructed object: the fields stored by `__init__`. -/
structure EmbeddedMetadata where
  src : Option Line
  src_path : Option Line
  encoding : Line
deriving DecidableEq

/-- Python truthiness of an optional string argument: `None` and the empty
string are falsy, any non-empty string is truthy. -/
def truthyStr : Option Line → Bool
  | Option.none => false
  | some t => !t.isEmpty

/-- Embeds `EmbeddedMetadataParser.__init__` (modelling the class body of
`EmbeddedMetadataParser`; the name avoids clashing with the scan model):
`if src and src_path: raise` / `elif not (src or src_path): raise`,
otherwise store the arguments unchanged. -/
def initEmbeddedMetadata (src src_path : Option Line) (encoding : Line) :
    Except ConfigError EmbeddedMetadata :=
  if truthyStr src && truthyStr src_path then
    Except.error ConfigError.bothProvided
  else if !(truthyStr src || truthyStr src_path) then
    Except.error ConfigError.neitherProvided
  else
    Except.ok { src := src, src_path := src_path, encoding := encoding }

/-! ## Decoded TOML values and the dependency views

The TOML decoder (`tomllib`), `packaging.specifiers.SpecifierSet` and
`packaging.requirements.Requirement` are external collaborators; decoded
values are modelled by an abstract value type in which the two parsing
collaborators appear as opaque wrappers, and decoded tables as association
lists with Python `dict` get/set/pop semantics (keys unique, insertion
order kept, assignment to an existing key updates in place). -/

inductive Value where
  | vnone : Value
  | vstr : Line → Value
  | vlist : List Value → Value
  | vtable : List (Line × Value) → Value
  | vspecifier : Value → Value
  | vrequirement : Value → Value

abbrev Dict : Type := List (Line × Value)

/-- Python `d.get(k)` / `d[k]`: first (unique) binding of `k`. -/
def dictGet (d : Dict) (k : Line) : Option Value :=
  match d with
  | [] => Option.none
  | (k1, v1) :: rest => if k1 == k then some v1 else dictGet rest k

/-- Python `k in d`. -/
def dictContains (d : Dict) (k : Line) : Bool :=
  match d with
  | [] => false
  | (k1, _) :: rest => k1 == k || dictContains rest k

/-- Python `d[k] = v`: update in place when present, else append. -/
def dictSet (d : Dict) (k : Line) (v : Value) : Dict :=
  match d with
  | [] => [(k, v)]
  | (k1, v1) :: rest =>
    if k1 == k then (k1, v) :: rest else (k1, v1) :: dictSet rest k v

/-- The removal effect of Python `d.pop(k, default)`. -/
def dictPop (d : Dict) (k : Line) : Dict :=
  match d with
  | [] => []
  | (k1, v1) :: rest => if k1 == k then rest else (k1, v1) :: dictPop rest k

def PYTHON_VERSION_KEY : Line := "requires-python".data

def DEPENDENCIES_KEY : Line := "dependencies".data

/-- `dep_data.get("run", {})` on a decoded pyproject block; the claim-level
hypotheses always make the `"run"` value a table (a non-table value would
make the Python code raise on the later key operations). -/
def getRunTable (block : Dict) : Dict :=
  match dictGet block ("run".data) with
  | some (Value.vtable t) => t
  | _ => []

/-- Python truthiness of the popped values in `script_dependencies`
(`if pyver:` / `if deps:`). -/
def truthyVal : Option Value → Bool
  | Option.none => false
  | some Value.vnone => false
  | some (Value.vstr s) => !s.isEmpty
  | some (Value.vlist l) => !l.isEmpty
  | some (Value.vtable t) => !t.isEmpty
  | some (Value.vspecifier _) => true
  | some (Value.vrequirement _) => true

/-- `[_laz.Requirement(spec) for spec in deps]` on a truthy `deps`. -/
def mapRequirements : Value → Value
  | Value.vlist vs => Value.vlist (vs.map Value.vrequirement)
  | v => Value.vrequirement v

/-- Embeds the `plain_script_dependencies` property, as a function of the
decoded pyproject block (`Option.none` models the `KeyError` path where no
pyproject block exists). -/
def plain_script_dependencies (pyproject : Option Dict) : Dict :=
  let run_block : Dict :=
    match pyproject with
    | Option.none => []
    | some d => getRunTable d
  let rb1 :=
    if dictContains run_block PYTHON_VERSION_KEY then run_block
    else dictSet run_block PYTHON_VERSION_KEY Value.vnone
  if dictContains rb1 DEPENDENCIES_KEY then rb1
  else dictSet rb1 DEPENDENCIES_KEY (Value.vlist [])

/-- Embeds the `script_dependencies` property, as a function of the decoded
pyproject block (`Option.none` models the `KeyError` path). -/
def script_dependencies (pyproject : Option Dict) : Dict :=
  match pyproject with
  | Option.none =>
    dictSet (dictSet [] PYTHON_VERSION_KEY Value.vnone) DEPENDENCIES_KEY (Value.vlist [])
  | some block =>
    let run_block := getRunTable block
    let pyver := dictGet run_block PYTHON_VERSION_KEY
    let rb1 := dictPop run_block PYTHON_VERSION_KEY
    let requires_python :=
      if truthyVal pyver then Value.vspecifier (pyver.getD Value.vnone) else Value.vnone
    let deps := (dictGet rb1 DEPENDENCIES_KEY).getD (Value.vlist [])
    let rb2 := dictPop rb1 DEPENDENCIES_KEY
    let dependencies :=
      if truthyVal (some deps) then mapRequirements deps else Value.vlist []
    dictSet (dictSet rb2 PYTHON_VERSION_KEY requires_python) DEPENDENCIES_KEY dependencies

/-! ## Helper lemmas about the string primitives -/

theorem rstrip_decomp (l : Line) :
    ∃ t, l = rstrip l ++ t ∧ ∀ c ∈ t, pyWs c = true := by
  refine ⟨(l.reverse.takeWhile pyWs).reverse, ?_, ?_⟩
  · conv_lhs => rw [← List.reverse_reverse l,
      ← List.takeWhile_append_dropWhile (p := pyWs) (l := l.reverse),
      List.reverse_append]
    rfl
  · intro c hc
    exact List.mem_takeWhile_imp (List.mem_reverse.mp hc)

theorem strip_eq_nil_of_ws (t : Line) (h : ∀ c ∈ t, pyWs c = true) :
    strip t = [] := by
  have h1 : lstrip t = [] := by
    unfold lstrip
    rw [List.dropWhile_eq_nil_iff]
    exact h
  simp [strip, h1, rstrip]

theorem isPrefixOf_of_rstrip (p l : Line) (h : p.isPrefixOf (rstrip l) = true) :
    p.isPrefixOf l = true := by
  obtain ⟨t, ht, _⟩ := rstrip_decomp l
  rw [List.isPrefixOf_iff_prefix] at h ⊢
  rw [ht]
  exact h.trans (List.prefix_append _ _)

/-- A line that keeps its opener-prefix shape and carries a non-blank name
after the marker is neither the closer nor the bare comment `#`. -/
theorem interior_opener_shape (line : Line)
    (hp : "# /// ".data.isPrefixOf line = true)
    (hn : strip (line.drop 5) ≠ []) :
    (rstrip line == "# ///".data) = false ∧ (rstrip line == "#".data) = false := by
  obtain ⟨t, ht, hws⟩ := rstrip_decomp line
  rw [List.isPrefixOf_iff_prefix] at hp
  obtain ⟨r, hr⟩ := hp
  constructor
  · rw [beq_eq_false_iff_ne]
    intro hclose
    apply hn
    have hdrop : line.drop 5 = t := by
      rw [ht, hclose]
      exact List.drop_left "# ///".data t
    rw [hdrop]
    exact strip_eq_nil_of_ws t hws
  · rw [beq_eq_false_iff_ne]
    intro hhash
    rw [ht, hhash] at hr
    have hslash : ('/' : Char) ∈ t := by
      have : ('#' : Char) :: ([' ', '/', '/', '/', ' '] ++ r) = '#' :: t := by
        simpa using hr
      have ht2 : t = [' ', '/', '/', '/', ' '] ++ r := (List.cons_injective this).symm
      rw [ht2]
      simp
    have := hws '/' hslash
    simp [pyWs] at this

/-! ## Branch characterizations of the scanner loop body -/

theorem processLine_inBlock (s : ScanState) (line : Line) (h : s.in_block = true) :
    processLine s line = inBlockLine s line := by
  simp [processLine, h]

theorem processLine_outside (s : ScanState) (line : Line) (h : s.in_block = false) :
    processLine s line = outsideLine s line := by
  simp [processLine, h]

theorem inBlockLine_unclosed (s : ScanState) (line : Line)
    (h : (rstrip line == "#".data || "# ".data.isPrefixOf line) = false) :
    inBlockLine s line = Except.ok { s with
      in_block := false
      block_name := Option.none
      block_data := []
      warnings := s.warnings ++ [ScanWarning.unclosed s.block_name] } := by
  simp [inBlockLine, h]

theorem inBlockLine_closer (s : ScanState) (line : Line)
    (h : rstrip line = "# ///".data) :
    inBlockLine s line = Except.ok { s with
      blocks := s.blocks ++ [(s.block_name.getD [], s.block_data.flatten)]
      in_block := false
      block_name := Option.none
      block_data := [] } := by
  have hpre : "# ".data.isPrefixOf line = true :=
    isPrefixOf_of_rstrip _ _ (by rw [h]; decide)
  simp [inBlockLine, h, hpre]

theorem inBlockLine_accum (s : ScanState) (line : Line)
    (h1 : (rstrip line == "#".data || "# ".data.isPrefixOf line) = true)
    (h2 : (rstrip line == "# ///".data) = false) :
    inBlockLine s line = Except.ok { s with
      possible_errors := s.possible_errors ++
        (if "# /// ".data.isPrefixOf line then
          [(strip (line.drop 5), s.block_name)] else [])
      block_data := s.block_data ++ [removeStart (line.drop 1) [' ']] } := by
  by_cases h3 : "# /// ".data.isPrefixOf line = true
  · simp [inBlockLine, h1, h2, h3]
  · rw [Bool.not_eq_true] at h3
    simp [inBlockLine, h1, h2, h3]

theorem outsideLine_inert (s : ScanState) (line : Line)
    (h : openerName line = Option.none) :
    outsideLine s line = Except.ok s := by
  simp [outsideLine, h]

theorem outsideLine_dup (s : ScanState) (line : Line) (name : Line)
    (h : openerName line = some name) (hmem : name ∈ s.consumed_blocks) :
    outsideLine s line = Except.error name := by
  simp [outsideLine, h, hmem]

theorem outsideLine_open (s : ScanState) (line : Line) (name : Line)
    (h : openerName line = some name) (hmem : name ∉ s.consumed_blocks)
    (hv : is_valid_type name = true) :
    outsideLine s line = Except.ok { s with
      warnings := s.warnings ++
        (if name == "pyproject.toml".data then [ScanWarning.aliasSuggest name] else [])
      consumed_blocks := s.consumed_blocks ++ [name]
      in_block := true
      block_name := some name } := by
  by_cases ha : (name == "pyproject.toml".data) = true
  · simp [outsideLine, h, hmem, hv, ha]
  · rw [Bool.not_eq_true] at ha
    simp [outsideLine, h, hmem, hv, ha]

theorem outsideLine_invalid (s : ScanState) (line : Line) (name : Line)
    (h : openerName line = some name) (hmem : name ∉ s.consumed_blocks)
    (hv : is_valid_type name = false) :
    outsideLine s line = Except.ok { s with
      warnings := s.warnings ++
        (if name == "pyproject.toml".data then [ScanWarning.aliasSuggest name] else [])
      block_name := some name } := by
  by_cases ha : (name == "pyproject.toml".data) = true
  · simp [outsideLine, h, hmem, hv, ha]
  · rw [Bool.not_eq_true] at ha
    simp [outsideLine, h, hmem, hv, ha]

/-! ## Scan-level lemmas -/

theorem scanList_append (a b : List Line) (s : ScanState) :
    scanList s (a ++ b) =
      match scanList s a with
      | Except.error e => Except.error e
      | Except.ok s1 => scanList s1 b := by
  induction a generalizing s with
  | nil => simp [scanList]
  | cons x xs ih =>
    simp only [List.cons_append, scanList]
    cases processLine s x with
    | error e => rfl
    | ok s1 => exact ih s1

/-- An interior line of a well-formed block: a comment line that is neither
the closer nor rejected by the unclosed-block check. -/
def validInteriorLine (line : Line) : Bool :=
  (rstrip line == "#".data || "# ".data.isPrefixOf line) &&
    !(rstrip line == "# ///".data)

/-- What accumulating an interior line appends to the block data: the line
with its one-character comment prefix and at most one following space
removed. -/
def stripInterior (line : Line) : Line := removeStart (line.drop 1) [' ']

theorem scanList_interior (interior : List Line) (s : ScanState)
    (hin : s.in_block = true)
    (hall : ∀ l ∈ interior, validInteriorLine l = true) :
    ∃ pe, scanList s interior = Except.ok { s with
      possible_errors := pe
      block_data := s.block_data ++ interior.map stripInterior } := by
  induction interior generalizing s with
  | nil =>
    refine ⟨s.possible_errors, ?_⟩
    simp [scanList]
  | cons x xs ih =>
    have hx := hall x (by simp)
    rw [validInteriorLine, Bool.and_eq_true, Bool.not_eq_true'] at hx
    have hstep : processLine s x = Except.ok { s with
        possible_errors := s.possible_errors ++
          (if "# /// ".data.isPrefixOf x then [(strip (x.drop 5), s.block_name)] else [])
        block_data := s.block_data ++ [stripInterior x] } := by
      rw [processLine_inBlock s x hin]
      exact inBlockLine_accum s x hx.1 hx.2
    obtain ⟨pe, hrest⟩ := ih { s with
        possible_errors := s.possible_errors ++
          (if "# /// ".data.isPrefixOf x then [(strip (x.drop 5), s.block_name)] else [])
        block_data := s.block_data ++ [stripInterior x] }
      hin (fun l hl => hall l (by simp [hl]))
    refine ⟨pe, ?_⟩
    simp only [scanList, hstep, hrest]
    simp

/-! ## The valid-name invariant

Every name recorded in `consumed_blocks`, every name of a yielded block,
and the name of the currently open block passed `_is_valid_type` when it
was accepted. -/

def NamesValid (s : ScanState) : Prop :=
  (∀ p ∈ s.blocks, is_valid_type p.1 = true) ∧
  (∀ n ∈ s.consumed_blocks, is_valid_type n = true) ∧
  (s.in_block = true → is_valid_type (s.block_name.getD []) = true)

theorem namesValid_init : NamesValid initState := by
  refine ⟨?_, ?_, ?_⟩ <;> simp [initState]

theorem namesValid_inBlockLine (s : ScanState) (line : Line) (s1 : ScanState)
    (hin : s.in_block = true) (hs : NamesValid s)
    (h : inBlockLine s line = Except.ok s1) : NamesValid s1 := by
  obtain ⟨hb, hc, hn⟩ := hs
  by_cases h1 : (rstrip line == "#".data || "# ".data.isPrefixOf line) = true
  · by_cases h2 : (rstrip line == "# ///".data) = true
    · rw [inBlockLine_closer s line (by rwa [beq_iff_eq] at h2)] at h
      cases h
      refine ⟨?_, hc, by intro hcontra; simp at hcontra⟩
      intro p hp
      simp only [List.mem_append, List.mem_singleton] at hp
      rcases hp with hp | hp
      · exact hb p hp
      · rw [hp]
        exact hn hin
    · rw [Bool.not_eq_true] at h2
      rw [inBlockLine_accum s line h1 h2] at h
      cases h
      exact ⟨hb, hc, fun _ => hn hin⟩
  · rw [Bool.not_eq_true] at h1
    rw [inBlockLine_unclosed s line h1] at h
    cases h
    exact ⟨hb, hc, by intro hcontra; simp at hcontra⟩

theorem namesValid_outsideLine (s : ScanState) (line : Line) (s1 : ScanState)
    (hout : s.in_block = false) (hs : NamesValid s)
    (h : outsideLine s line = Except.ok s1) : NamesValid s1 := by
  obtain ⟨hb, hc, _⟩ := hs
  cases hname : openerName line with
  | none =>
    rw [outsideLine_inert s line hname] at h
    cases h
    exact ⟨hb, hc, fun h2 => by rw [hout] at h2; cases h2⟩
  | some name =>
    by_cases hmem : name ∈ s.consumed_blocks
    · rw [outsideLine_dup s line name hname hmem] at h
      cases h
    · by_cases hv : is_valid_type name = true
      · rw [outsideLine_open s line name hname hmem hv] at h
        cases h
        refine ⟨hb, ?_, ?_⟩
        · intro n hn2
          simp only [List.mem_append, List.mem_singleton] at hn2
          rcases hn2 with hn2 | hn2
          · exact hc n hn2
          · rw [hn2]; exact hv
        · intro _
          simpa using hv
      · rw [Bool.not_eq_true] at hv
        rw [outsideLine_invalid s line name hname hmem hv] at h
        cases h
        exact ⟨hb, hc, fun h2 => by rw [hout] at h2; cases h2⟩

theorem namesValid_processLine (s : ScanState) (line : Line) (s1 : ScanState)
    (hs : NamesValid s) (h : processLine s line = Except.ok s1) : NamesValid s1 := by
  by_cases hin : s.in_block = true
  · rw [processLine_inBlock s line hin] at h
    exact namesValid_inBlockLine s line s1 hin hs h
  · rw [Bool.not_eq_true] at hin
    rw [processLine_outside s line hin] at h
    exact namesValid_outsideLine s line s1 hin hs h

theorem namesValid_scanList (lines : List Line) (s : ScanState) (s1 : ScanState)
    (hs : NamesValid s) (h : scanList s lines = Except.ok s1) : NamesValid s1 := by
  induction lines generalizing s with
  | nil =>
    simp only [scanList] at h
    cases h
    exact hs
  | cons x xs ih =>
    simp only [scanList] at h
    cases hstep : processLine s x with
    | error e => rw [hstep] at h; cases h
    | ok s2 =>
      rw [hstep] at h
      exact ih s2 (namesValid_processLine s x s2 hs hstep) h

theorem runScan_of_scanList_error (lines : List Line) (e : Line)
    (h : scanList initState lines = Except.error e) :
    runScan lines = Except.error e := by
  unfold runScan
  rw [h]

theorem runScan_of_scanList_ok (lines : List Line) (s : ScanState)
    (h : scanList initState lines = Except.ok s) :
    runScan lines =
      if s.in_block then
        Except.ok { s with warnings := s.warnings ++ [ScanWarning.unclosed s.block_name] }
      else Except.ok s := by
  unfold runScan
  rw [h]

/-- Every block a completed scan returns carries a name that passed
`_is_valid_type`. -/
theorem metadata_blocks_names_valid (lines : List Line)
    (bs : List (Line × Line)) (h : metadata_blocks lines = Except.ok bs) :
    ∀ p ∈ bs, is_valid_type p.1 = true := by
  unfold metadata_blocks at h
  cases hscan : scanList initState lines with
  | error e =>
    rw [runScan_of_scanList_error lines e hscan] at h
    simp [Except.map] at h
  | ok s =>
    have hv := namesValid_scanList lines initState s namesValid_init hscan
    rw [runScan_of_scanList_ok lines s hscan] at h
    by_cases hin : s.in_block = true
    · rw [if_pos hin] at h
      simp only [Except.map] at h
      cases h
      exact hv.1
    · rw [if_neg hin] at h
      simp only [Except.map] at h
      cases h
      exact hv.1

/-! ## Dictionary lemmas -/

theorem dictGet_dictSet_ne (d : Dict) (k1 k2 : Line) (v : Value) (h : k1 ≠ k2) :
    dictGet (dictSet d k1 v) k2 = dictGet d k2 := by
  induction d with
  | nil =>
    have hne : (k1 == k2) = false := beq_eq_false_iff_ne.mpr h
    simp [dictSet, dictGet, hne]
  | cons p rest ih =>
    obtain ⟨a, b⟩ := p
    by_cases ha : (a == k1) = true
    · have ha2 : (a == k2) = false := by
        rw [beq_iff_eq] at ha
        exact beq_eq_false_iff_ne.mpr (ha ▸ h)
      simp [dictSet, dictGet, ha, ha2]
    · rw [Bool.not_eq_true] at ha
      by_cases ha2 : (a == k2) = true
      · simp [dictSet, dictGet, ha, ha2]
      · rw [Bool.not_eq_true] at ha2
        simp [dictSet, dictGet, ha, ha2, ih]

theorem dictGet_dictPop_ne (d : Dict) (k1 k2 : Line) (h : k1 ≠ k2) :
    dictGet (dictPop d k1) k2 = dictGet d k2 := by
  induction d with
  | nil => simp [dictPop, dictGet]
  | cons p rest ih =>
    obtain ⟨a, b⟩ := p
    by_cases ha : (a == k1) = true
    · have ha2 : (a == k2) = false := by
        rw [beq_iff_eq] at ha
        exact beq_eq_false_iff_ne.mpr (ha ▸ h)
      simp [dictPop, dictGet, ha, ha2]
    · rw [Bool.not_eq_true] at ha
      by_cases ha2 : (a == k2) = true
      · simp [dictPop, dictGet, ha, ha2]
      · rw [Bool.not_eq_true] at ha2
        simp [dictPop, dictGet, ha, ha2, ih]

/-! ## Claim C9 -/

/-- Claim C9 counterexample: supplying exactly one constructor argument —
`src` the empty string, `src_path` `None` — still fails construction, so
"fails iff both or neither supplied" is false as stated: Python truthiness
treats a supplied empty string like an absent source. -/
theorem C9_counterexample :
    (some ([] : Line)).isSome = true ∧
    (Option.none : Option Line).isSome = false ∧
    initEmbeddedMetadata (some []) Option.none "utf-8".data =
      Except.error ConfigError.neitherProvided := by
  decide

/-- Claim C9 (amended): construction fails with a configuration error if
and only if the string source and the path source are both truthy or both
falsy in Python's sense (`None` and the empty string are falsy); when
exactly one is truthy, construction succeeds and stores the given sources
unchanged. -/
theorem C9_construction_iff_exactly_one_truthy
    (src src_path : Option Line) (encoding : Line) :
    (truthyStr src ≠ truthyStr src_path →
      initEmbeddedMetadata src src_path encoding =
        Except.ok { src := src, src_path := src_path, encoding := encoding }) ∧
    (truthyStr src = truthyStr src_path →
      ∃ e, initEmbeddedMetadata src src_path encoding = Except.error e) := by
  constructor
  · intro hne
    cases hs : truthyStr src <;> cases hp : truthyStr src_path
    · rw [hs, hp] at hne; exact absurd rfl hne
    · simp [initEmbeddedMetadata, hs, hp]
    · simp [initEmbeddedMetadata, hs, hp]
    · rw [hs, hp] at hne; exact absurd rfl hne
  · intro heq
    cases hs : truthyStr src <;> cases hp : truthyStr src_path
    · exact ⟨ConfigError.neitherProvided, by simp [initEmbeddedMetadata, hs, hp]⟩
    · rw [hs, hp] at heq; cases heq
    · rw [hs, hp] at heq; cases heq
    · exact ⟨ConfigError.bothProvided, by simp [initEmbeddedMetadata, hs, hp]⟩

theorem C9_witness :
    truthyStr (some "x".data) ≠ truthyStr (Option.none : Option Line) ∧
    initEmbeddedMetadata (some "x".data) Option.none "utf-8".data =
      Except.ok { src := some "x".data, src_path := Option.none, encoding := "utf-8".data } :=
  ⟨by decide,
   (C9_construction_iff_exactly_one_truthy (some "x".data) Option.none "utf-8".data).1
     (by decide)⟩

/-! ## Claim C10 -/

/-- Claim C10 (confirmed): both dependency views keep every key of the
decoded `run` table other than `requires-python` and `dependencies`, with
its decoded value unchanged; only those two entries are added or replaced. -/
theorem C10_extra_run_keys_preserved (d rb : Dict) (k : Line) (v : Value)
    (hrun : dictGet d ("run".data) = some (Value.vtable rb))
    (hk1 : k ≠ PYTHON_VERSION_KEY) (hk2 : k ≠ DEPENDENCIES_KEY)
    (hv : dictGet rb k = some v) :
    dictGet (plain_script_dependencies (some d)) k = some v ∧
    dictGet (script_dependencies (some d)) k = some v := by
  have hrb : getRunTable d = rb := by simp [getRunTable, hrun]
  constructor
  · simp only [plain_script_dependencies, hrb]
    by_cases h1 : dictContains rb PYTHON_VERSION_KEY = true
    · rw [if_pos h1]
      by_cases h2 : dictContains rb DEPENDENCIES_KEY = true
      · rw [if_pos h2]
        exact hv
      · rw [if_neg h2, dictGet_dictSet_ne _ _ _ _ (Ne.symm hk2)]
        exact hv
    · rw [if_neg h1]
      by_cases h2 : dictContains (dictSet rb PYTHON_VERSION_KEY Value.vnone) DEPENDENCIES_KEY = true
      · rw [if_pos h2, dictGet_dictSet_ne _ _ _ _ (Ne.symm hk1)]
        exact hv
      · rw [if_neg h2, dictGet_dictSet_ne _ _ _ _ (Ne.symm hk2),
            dictGet_dictSet_ne _ _ _ _ (Ne.symm hk1)]
        exact hv
  · simp only [script_dependencies, hrb]
    rw [dictGet_dictSet_ne _ _ _ _ (Ne.symm hk2),
        dictGet_dictSet_ne _ _ _ _ (Ne.symm hk1),
        dictGet_dictPop_ne _ _ _ (Ne.symm hk2),
        dictGet_dictPop_ne _ _ _ (Ne.symm hk1)]
    exact hv

theorem C10_witness :
    dictGet (plain_script_dependencies
        (some [("run".data,
          Value.vtable [("extra".data, Value.vstr "x".data)])])) "extra".data =
      some (Value.vstr "x".data) ∧
    dictGet (script_dependencies
        (some [("run".data,
          Value.vtable [("extra".data, Value.vstr "x".data)])])) "extra".data =
      some (Value.vstr "x".data) :=
  C10_extra_run_keys_preserved
    [("run".data, Value.vtable [("extra".data, Value.vstr "x".data)])]
    [("extra".data, Value.vstr "x".data)] "extra".data (Value.vstr "x".data)
    rfl (by decide) (by decide) rfl

/-! ## Claim C4 -/

/-- Claim C4 (confirmed): for every valid single-block input — one valid
opener, interior comment lines, one closer — the single yielded block
carries the opener's name and its raw text is the concatenation of the
interior lines, each with exactly one leading comment character and at
most one following space stripped, line terminators preserved. -/
theorem C4_single_block_raw_text (opener name : Line)
    (interior : List Line) (closer : Line)
    (hop : openerName opener = some name)
    (hv : is_valid_type name = true)
    (hint : ∀ l ∈ interior, validInteriorLine l = true)
    (hcl : rstrip closer = "# ///".data) :
    metadata_blocks (opener :: interior ++ [closer]) =
      Except.ok [(name, (interior.map stripInterior).flatten)] := by
  have hne : (name == "pyproject.toml".data) = false := by
    rw [beq_eq_false_iff_ne]
    intro he
    rw [he] at hv
    exact absurd hv (by decide)
  have hstep0 : processLine initState opener = Except.ok
      { in_block := true, block_name := some name, block_data := [],
        consumed_blocks := [name], possible_errors := [], warnings := [],
        blocks := [] } := by
    rw [processLine_outside initState opener rfl,
        outsideLine_open initState opener name hop (by simp [initState]) hv]
    simp [initState, hne]
  obtain ⟨pe, hmid⟩ := scanList_interior interior
    { in_block := true, block_name := some name, block_data := [],
      consumed_blocks := [name], possible_errors := [], warnings := [],
      blocks := [] } rfl hint
  have hstep2 : processLine
      { in_block := true, block_name := some name,
        block_data := [] ++ interior.map stripInterior,
        consumed_blocks := [name], possible_errors := pe, warnings := [],
        blocks := [] } closer = Except.ok
      { in_block := false, block_name := Option.none, block_data := [],
        consumed_blocks := [name], possible_errors := pe, warnings := [],
        blocks := [(name, (interior.map stripInterior).flatten)] } := by
    rw [processLine_inBlock _ closer rfl, inBlockLine_closer _ closer hcl]
    simp
  have hscan : scanList initState (opener :: interior ++ [closer]) =
      Except.ok
      { in_block := false, block_name := Option.none, block_data := [],
        consumed_blocks := [name], possible_errors := pe, warnings := [],
        blocks := [(name, (interior.map stripInterior).flatten)] } := by
    show scanList initState (opener :: (interior ++ [closer])) = _
    simp only [scanList, hstep0]
    rw [scanList_append, hmid]
    show scanList _ [closer] = _
    simp only [scanList, hstep2]
  unfold metadata_blocks
  rw [runScan_of_scanList_ok _ _ hscan, if_neg (by simp)]
  rfl

theorem C4_witness :
    metadata_blocks
      ["# /// pyproject\n".data, "# [run]\n".data,
       "# dependencies = [\"requests\"]\n".data, "# ///\n".data]
    = Except.ok [("pyproject".data, "[run]\ndependencies = [\"requests\"]\n".data)] :=
  (C4_single_block_raw_text "# /// pyproject\n".data "pyproject".data
    ["# [run]\n".data, "# dependencies = [\"requests\"]\n".data] "# ///\n".data
    (by decide) (by decide) (by decide) (by decide)).trans (by decide)

/-! ## Claim C3 -/

/-- Claim C3 (confirmed): if one scan, back in outside-block state, meets a
second opener whose name was already consumed, the scan raises the hard
duplicate failure, and the materialized result (`metadata_blocks`, which
corresponds to fully consuming the generator) returns no blocks at all —
not even the first completed one. -/
theorem C3_duplicate_opener_hard_failure (lines1 : List Line) (line : Line)
    (lines2 : List Line) (s : ScanState) (name : Line)
    (h1 : scanList initState lines1 = Except.ok s)
    (hout : s.in_block = false)
    (hop : openerName line = some name)
    (hmem : name ∈ s.consumed_blocks) :
    metadata_blocks (lines1 ++ line :: lines2) = Except.error name := by
  have hstep : processLine s line = Except.error name := by
    rw [processLine_outside s line hout]
    exact outsideLine_dup s line name hop hmem
  have hscan : scanList initState (lines1 ++ line :: lines2) = Except.error name := by
    rw [scanList_append, h1]
    show scanList s (line :: lines2) = Except.error name
    simp only [scanList, hstep]
  unfold metadata_blocks
  rw [runScan_of_scanList_error _ _ hscan]
  rfl

theorem C3_witness :
    metadata_blocks ["# /// tool\n".data, "# ///\n".data, "# /// tool\n".data] =
      Except.error "tool".data :=
  C3_duplicate_opener_hard_failure
    ["# /// tool\n".data, "# ///\n".data] "# /// tool\n".data []
    { in_block := false, block_name := Option.none, block_data := [],
      consumed_blocks := ["tool".data], possible_errors := [], warnings := [],
      blocks := [("tool".data, [])] }
    "tool".data (by decide) rfl (by decide) (by decide)

/-! ## Claim C6 -/

/-- Claim C6 (confirmed): an opener-prefixed comment line met while a block
is open — whatever its name, valid or not — does not close or replace the
open block: one diagnostic (the nested name and the open block's name) is
appended to the diagnostics list and the line itself, stripped of its
comment prefix, is accumulated into the open block's text. -/
theorem C6_nested_opener_diagnostic (s : ScanState) (line : Line)
    (hin : s.in_block = true)
    (hp : "# /// ".data.isPrefixOf line = true)
    (hn : strip (line.drop 5) ≠ []) :
    processLine s line = Except.ok { s with
      possible_errors := s.possible_errors ++ [(strip (line.drop 5), s.block_name)]
      block_data := s.block_data ++ [stripInterior line] } := by
  obtain ⟨hnc, hnh⟩ := interior_opener_shape line hp hn
  have hpre2 : "# ".data.isPrefixOf line = true := by
    rw [List.isPrefixOf_iff_prefix] at hp ⊢
    exact List.IsPrefix.trans (by decide) hp
  rw [processLine_inBlock s line hin,
      inBlockLine_accum s line (by rw [hnh, hpre2]; decide) hnc]
  simp [hp, stripInterior]

theorem C6_witness :
    processLine
      { in_block := true, block_name := some "pyproject".data, block_data := [],
        consumed_blocks := ["pyproject".data], possible_errors := [],
        warnings := [], blocks := [] } "# /// tool\n".data =
    Except.ok
      { in_block := true, block_name := some "pyproject".data,
        block_data := ["/// tool\n".data],
        consumed_blocks := ["pyproject".data],
        possible_errors := [("tool".data, some "pyproject".data)],
        warnings := [], blocks := [] } :=
  (C6_nested_opener_diagnostic _ "# /// tool\n".data rfl (by decide)
    (by decide)).trans (by decide)

/-! ## Claim C7 -/

/-- Claim C7 (confirmed): an open block terminated by an invalid interior
line (not bare `#` after rstrip, not starting with `# `), or still open at
end of input, yields no block: its accumulated lines are discarded, exactly
one unclosed-block warning is appended, the scan continues (the step
returns normally), and the blocks completed earlier in the scan are kept
unchanged. -/
theorem C7_unclosed_block_dropped :
    (∀ (s : ScanState) (line : Line), s.in_block = true →
      (rstrip line == "#".data || "# ".data.isPrefixOf line) = false →
      processLine s line = Except.ok { s with
        in_block := false
        block_name := Option.none
        block_data := []
        warnings := s.warnings ++ [ScanWarning.unclosed s.block_name] }) ∧
    (∀ (lines : List Line) (s : ScanState),
      scanList initState lines = Except.ok s → s.in_block = true →
      runScan lines = Except.ok { s with
        warnings := s.warnings ++ [ScanWarning.unclosed s.block_name] }) := by
  constructor
  · intro s line hin hbad
    rw [processLine_inBlock s line hin]
    exact inBlockLine_unclosed s line hbad
  · intro lines s hscan hin
    rw [runScan_of_scanList_ok lines s hscan, if_pos hin]

theorem C7_witness :
    processLine
      { in_block := true, block_name := some "pyproject".data,
        block_data := ["x = 1\n".data], consumed_blocks := ["pyproject".data],
        possible_errors := [], warnings := [], blocks := [] } "y = 1\n".data =
    Except.ok
      { in_block := false, block_name := Option.none, block_data := [],
        consumed_blocks := ["pyproject".data], possible_errors := [],
        warnings := [ScanWarning.unclosed (some "pyproject".data)],
        blocks := [] } ∧
    runScan ["# /// pyproject\n".data] =
    Except.ok
      { in_block := true, block_name := some "pyproject".data, block_data := [],
        consumed_blocks := ["pyproject".data], possible_errors := [],
        warnings := [ScanWarning.unclosed (some "pyproject".data)],
        blocks := [] } :=
  ⟨(C7_unclosed_block_dropped.1 _ "y = 1\n".data rfl (by decide)).trans (by decide),
   (C7_unclosed_block_dropped.2 ["# /// pyproject\n".data]
     { in_block := true, block_name := some "pyproject".data, block_data := [],
       consumed_blocks := ["pyproject".data], possible_errors := [],
       warnings := [], blocks := [] } (by decide) rfl).trans (by decide)⟩

/-! ## Claim C1 -/

/-- Claim C1 counterexample: a source whose only opener-like line names
`pyproject.toml` (followed by interior lines and a closer) produces the one
alias-suggestion warning, but the scan yields NO block at all — in
particular no block under the literal name `pyproject.toml` — because the
dot fails the `_is_valid_type` character class, so the opener never opens. -/
theorem C1_counterexample :
    (runScan ["# /// pyproject.toml\n".data, "# [run]\n".data, "# ///\n".data]).map
        ScanState.warnings =
      Except.ok [ScanWarning.aliasSuggest "pyproject.toml".data] ∧
    metadata_blocks ["# /// pyproject.toml\n".data, "# [run]\n".data, "# ///\n".data] =
      Except.ok [] := by
  decide

/-- Claim C1 (amended): an opener-like line whose trimmed name is exactly
`pyproject.toml`, met in outside-block state, appends one alias-suggestion
warning but opens nothing: the state stays outside-block with consumed
names, diagnostics and yielded blocks unchanged (only the scratch
`block_name` variable is overwritten), and no completed scan ever returns a
block named `pyproject.toml`. -/
theorem C1_alias_warning_no_block :
    (∀ (s : ScanState) (line : Line), s.in_block = false →
      openerName line = some "pyproject.toml".data →
      "pyproject.toml".data ∉ s.consumed_blocks →
      processLine s line = Except.ok { s with
        warnings := s.warnings ++ [ScanWarning.aliasSuggest "pyproject.toml".data]
        block_name := some "pyproject.toml".data }) ∧
    (∀ (lines : List Line) (bs : List (Line × Line)) (t : Line),
      metadata_blocks lines = Except.ok bs → ("pyproject.toml".data, t) ∉ bs) := by
  constructor
  · intro s line hout hop hmem
    rw [processLine_outside s line hout,
        outsideLine_invalid s line "pyproject.toml".data hop hmem (by decide)]
    simp
  · intro lines bs t h hmem
    have hval : is_valid_type "pyproject.toml".data = true :=
      metadata_blocks_names_valid lines bs h ("pyproject.toml".data, t) hmem
    exact absurd hval (by decide)

theorem C1_witness :
    processLine initState "# /// pyproject.toml\n".data =
      Except.ok
        { in_block := false, block_name := some "pyproject.toml".data,
          block_data := [], consumed_blocks := [], possible_errors := [],
          warnings := [ScanWarning.aliasSuggest "pyproject.toml".data],
          blocks := [] } ∧
    ("pyproject.toml".data, ([] : Line)) ∉ ([] : List (Line × Line)) :=
  ⟨(C1_alias_warning_no_block.1 initState "# /// pyproject.toml\n".data rfl
      (by decide) (by decide)).trans (by decide),
   C1_alias_warning_no_block.2 [] [] [] (by decide)⟩

/-! ## Claim C2 -/

/-- Claim C2 counterexample: on a source whose opener `# /// pyproject`
appears a second time before any closer (the repository's own
`multiple_opening_lines.py` test fixture), the scan does NOT fail with a
duplicate-block error — it completes successfully. The second opener line
is met in inside-block state, where the duplicate check is never reached. -/
theorem C2_counterexample :
    (runScan
      ["# /// pyproject\n".data, "# [run]\n".data,
       "# dependencies = [\"requests\"]\n".data, "# /// pyproject\n".data,
       "# requires-python = \">=3.11\"\n".data, "# ///\n".data]).isOk = true := by
  decide

/-- Claim C2 (amended): when `# /// pyproject` is opened a second time
before any closer, the second opener line falls inside the open block, so
no duplicate-block error is raised: the scan returns exactly one
`pyproject` block whose raw text contains the second opener line (stripped
of its comment prefix), and one nested-opener diagnostic is recorded —
matching the repository's `multiple_opening_lines.py` expected output. -/
theorem C2_second_opener_absorbed :
    metadata_blocks
      ["# /// pyproject\n".data, "# [run]\n".data,
       "# dependencies = [\"requests\"]\n".data, "# /// pyproject\n".data,
       "# requires-python = \">=3.11\"\n".data, "# ///\n".data] =
      Except.ok [("pyproject".data,
        "[run]\ndependencies = [\"requests\"]\n/// pyproject\nrequires-python = \">=3.11\"\n".data)] ∧
    (runScan
      ["# /// pyproject\n".data, "# [run]\n".data,
       "# dependencies = [\"requests\"]\n".data, "# /// pyproject\n".data,
       "# requires-python = \">=3.11\"\n".data, "# ///\n".data]).map
        ScanState.possible_errors =
      Except.ok [("pyproject".data, some "pyproject".data)] := by
  decide

/-! ## Claim C5 -/

/-- Claim C5 counterexample: the opener-like line `# /// pyproject.toml`
carries a name outside `[A-Za-z0-9-]`, yet it is NOT silently ignored: the
step emits an alias-suggestion warning (and overwrites the scratch
block-name variable). -/
theorem C5_counterexample :
    processLine initState "# /// pyproject.toml\n".data =
      Except.ok
        { in_block := false, block_name := some "pyproject.toml".data,
          block_data := [], consumed_blocks := [], possible_errors := [],
          warnings := [ScanWarning.aliasSuggest "pyproject.toml".data],
          blocks := [] } ∧
    [ScanWarning.aliasSuggest "pyproject.toml".data] ≠ ([] : List ScanWarning) := by
  decide

/-- Claim C5 (amended): the scanner never yields a block whose name
contains a character outside `[A-Za-z0-9-]`; an opener-like line with such
a name opens nothing — outside-block state, consumed names, diagnostics
and yielded blocks are unchanged (only the scratch block-name variable is
overwritten) and nothing is emitted, except that the exact name
`pyproject.toml` additionally draws one alias-suggestion warning; and a
line consisting of `# /// ` followed by nothing is never an opener. -/
theorem C5_invalid_names_never_yielded :
    (∀ (lines : List Line) (bs : List (Line × Line)) (p : Line × Line),
      metadata_blocks lines = Except.ok bs → p ∈ bs →
      is_valid_type p.1 = true) ∧
    (∀ (s : ScanState) (line name : Line), s.in_block = false →
      openerName line = some name → is_valid_type name = false →
      name ∉ s.consumed_blocks →
      processLine s line = Except.ok { s with
        warnings := s.warnings ++
          (if name == "pyproject.toml".data then
            [ScanWarning.aliasSuggest name] else [])
        block_name := some name }) ∧
    (∀ s : ScanState, s.in_block = false →
      processLine s "# /// \n".data = Except.ok s ∧
      processLine s "# /// ".data = Except.ok s) := by
  refine ⟨?_, ?_, ?_⟩
  · intro lines bs p h hp
    exact metadata_blocks_names_valid lines bs h p hp
  · intro s line name hout hop hv hmem
    rw [processLine_outside s line hout]
    exact outsideLine_invalid s line name hop hmem hv
  · intro s hout
    constructor
    · rw [processLine_outside s _ hout]
      exact outsideLine_inert s _ (by decide)
    · rw [processLine_outside s _ hout]
      exact outsideLine_inert s _ (by decide)

theorem C5_witness :
    is_valid_type "pyproject".data = true ∧
    processLine initState "# /// bad.name\n".data =
      Except.ok
        { in_block := false, block_name := some "bad.name".data,
          block_data := [], consumed_blocks := [], possible_errors := [],
          warnings := [], blocks := [] } ∧
    processLine initState "# /// \n".data = Except.ok initState :=
  ⟨C5_invalid_names_never_yielded.1
      ["# /// pyproject\n".data, "# ///\n".data] [("pyproject".data, [])]
      ("pyproject".data, []) (by decide) (by decide),
   (C5_invalid_names_never_yielded.2.1 initState "# /// bad.name\n".data
      "bad.name".data rfl (by decide) (by decide) (by decide)).trans (by decide),
   (C5_invalid_names_never_yielded.2.2 initState rfl).1⟩

/-! ## Claim C8 -/

/-- Claim C8 counterexample: after scanning `# /// a`, a nested opener
`# /// x`, the closer, and then `# /// b`, the scanner is inside block `b`
while the diagnostics list still holds the entry recorded while block `a`
was open — so entering inside-block does not clear the diagnostics list,
and mid-scan it is not restricted to entries of the currently open block. -/
theorem C8_counterexample :
    (scanList initState
        ["# /// a\n".data, "# /// x\n".data, "# ///\n".data, "# /// b\n".data]).map
      (fun st => (st.in_block, st.block_name, st.possible_errors)) =
    Except.ok (true, some "b".data, [("x".data, some "a".data)]) := by
  decide

/-- Claim C8 (amended): the diagnostics list is cleared once, at the start
of each scan (the initial scanner state has an empty list), and every scan
step only appends to it — so during one scan diagnostics accumulate and
may retain entries recorded while earlier blocks were open. -/
theorem C8_diagnostics_reset_per_scan :
    initState.possible_errors = [] ∧
    (∀ (s : ScanState) (line : Line) (s1 : ScanState),
      processLine s line = Except.ok s1 →
      ∃ t, s1.possible_errors = s.possible_errors ++ t) := by
  constructor
  · rfl
  · intro s line s1 h
    by_cases hin : s.in_block = true
    · rw [processLine_inBlock s line hin] at h
      by_cases h1 : (rstrip line == "#".data || "# ".data.isPrefixOf line) = true
      · by_cases h2 : (rstrip line == "# ///".data) = true
        · rw [inBlockLine_closer s line (by rwa [beq_iff_eq] at h2)] at h
          cases h
          exact ⟨[], by simp⟩
        · rw [Bool.not_eq_true] at h2
          rw [inBlockLine_accum s line h1 h2] at h
          cases h
          exact ⟨_, rfl⟩
      · rw [Bool.not_eq_true] at h1
        rw [inBlockLine_unclosed s line h1] at h
        cases h
        exact ⟨[], by simp⟩
    · rw [Bool.not_eq_true] at hin
      rw [processLine_outside s line hin] at h
      cases hname : openerName line with
      | none =>
        rw [outsideLine_inert s line hname] at h
        cases h
        exact ⟨[], by simp⟩
      | some name =>
        by_cases hmem : name ∈ s.consumed_blocks
        · rw [outsideLine_dup s line name hname hmem] at h
          cases h
        · by_cases hv : is_valid_type name = true
          · rw [outsideLine_open s line name hname hmem hv] at h
            cases h
            exact ⟨[], by simp⟩
          · rw [Bool.not_eq_true] at hv
            rw [outsideLine_invalid s line name hname hmem hv] at h
            cases h
            exact ⟨[], by simp⟩

theorem C8_witness :
    ∃ t, ScanState.possible_errors
        { in_block := true, block_name := some "a".data, block_data := [],
          consumed_blocks := ["a".data], possible_errors := [], warnings := [],
          blocks := [] } =
      initState.possible_errors ++ t :=
  C8_diagnostics_reset_per_scan.2 initState "# /// a\n".data
    { in_block := true, block_name := some "a".data, block_data := [],
      consumed_blocks := ["a".data], possible_errors := [], warnings := [],
      blocks := [] } (by decide)

